import Mathlib

/-!
# Verification of the migrate-guard backend against its specification

This file gives a shallow embedding, in Lean 4, of the parts of the
migrate-guard backend (a TypeScript control plane for website-migration
assurance) that the verified properties are about, together with proofs.

Embedding conventions:
* JavaScript numbers that hold ratios / risk scores are modelled as `ℚ`
  (every value the code produces for them is a ratio of machine integers).
* ISO-8601 timestamp strings are modelled as `ℕ` instants: comparison of
  equal-format ISO strings agrees with comparison of the instants.
* `undefined` / optional fields are modelled with `Option`.
* Stateful services that load a `StorageSnapshot`, transform it and save it
  are modelled as pure functions from snapshot to snapshot (plus explicit
  inputs for `new Date()` stamps and `randomUUID()` results).
* Filesystem effects are modelled as explicit traces of operations over an
  association-list disk, so that crash behaviour can be analysed.
-/

namespace MigrateGuard

/-! ## Data model (backend/src/models.ts, v2 document)

Fields that none of the embedded operations read (e.g. `CrawledPage.metadata`,
`CrawlConfig.includePaths`/`excludePaths`) are omitted from the structures. -/

/-- `JobStatus` from models.ts. -/
inductive JobStatus
  | pending
  | active
  | completed
  | failed
deriving DecidableEq, Repr

/-- `RunStatus` from models.ts. -/
inductive RunStatus
  | queued
  | running
  | completed
  | failed
deriving DecidableEq, Repr

/-- `CrawlConfig` from models.ts (pattern lists omitted: unused by the
embedded operations). -/
structure CrawlConfig where
  depth : Nat
  maxPages : Nat
  followExternalLinks : Bool
deriving DecidableEq, Repr

/-- `PageMap` entry from models.ts. -/
structure PageMapEntry where
  baselinePath : String
  candidatePath : String
  notes : Option String := none
deriving DecidableEq, Repr

/-- `TestMatrix` from models.ts. -/
structure TestMatrix where
  visual : Bool
  functional : Bool
  data : Bool
  seo : Bool
deriving DecidableEq, Repr

/-- Legacy `Job` from models.ts (deprecated v1 shape with
`sourceUrl`/`targetUrl`). -/
structure Job where
  id : String
  name : String
  description : Option String
  sourceUrl : String
  targetUrl : String
  status : JobStatus
  createdAt : Nat
  updatedAt : Nat
deriving DecidableEq, Repr

/-- `ComparisonJob` from models.ts. -/
structure ComparisonJob where
  id : String
  name : String
  description : Option String
  baselineUrl : String
  candidateUrl : String
  crawlConfig : CrawlConfig
  pageMap : List PageMapEntry
  testMatrix : TestMatrix
  status : JobStatus
  createdAt : Nat
  updatedAt : Nat
  migratedFrom : Option String := none
  snapshotVersion : Option String := none
deriving DecidableEq, Repr

/-- `RunArtifact` from models.ts. -/
structure RunArtifact where
  id : String
  runId : String
  type : String
  label : String
  path : String
  createdAt : Nat
deriving DecidableEq, Repr

/-- `Run` from models.ts.  `completedAt` is optional in the interface. -/
structure Run where
  id : String
  jobId : String
  status : RunStatus
  triggeredBy : String
  triggeredAt : Nat
  completedAt : Option Nat := none
deriving DecidableEq, Repr

/-- Snapshot `metadata` object from models.ts. -/
structure SnapshotMetadata where
  lastMigration : Option Nat := none
  migrationNotes : Option String := none
deriving DecidableEq, Repr

/-- `StorageSnapshot` from models.ts (v2).  `version` is typed as a required
string in the interface but the storage layer handles its absence at runtime,
so it is modelled as `Option String`; the optional legacy `jobs` array is
modelled as a plain list (`undefined` and `[]` are treated identically by
every read in the services, which all guard with `|| []` or truthiness
checks). -/
structure StorageSnapshot where
  version : Option String := none
  jobs : List Job := []
  comparisonJobs : List ComparisonJob := []
  runs : List Run := []
  artifacts : List RunArtifact := []
  metadata : SnapshotMetadata := {}
deriving DecidableEq, Repr

/-! ## Report synthesis: the Go/No-Go decision
(backend/src/services/reportAgent.ts, `ReportAgent.generateExecutiveSummary`)

The decision block reads `riskScore.overall` (a number), the reasoner's
`aiResult.overallPass` (boolean) and the computed `criticalIssues` count:

```ts
let goNoGo: 'go' | 'no-go' | 'conditional' = 'go';
if (riskScore.overall >= 75 || !aiResult.overallPass) {
  goNoGo = 'no-go';
} else if (riskScore.overall >= 50 || criticalIssues > 0) {
  goNoGo = 'conditional';
}
```
-/

/-- The three Go/No-Go outcomes of the executive summary. -/
inductive GoNoGo
  | go
  | noGo
  | conditional
deriving DecidableEq, Repr

/-- The Go/No-Go decision block of `ReportAgent.generateExecutiveSummary`,
as a function of the overall risk score, the reasoner's overall pass flag and
the critical-issue count. -/
def goNoGoDecision (overall : ℚ) (overallPass : Bool) (criticalIssues : Nat) : GoNoGo :=
  if 75 ≤ overall ∨ overallPass = false then GoNoGo.noGo
  else if 50 ≤ overall ∨ 0 < criticalIssues then GoNoGo.conditional
  else GoNoGo.go

/-! ## Visual diff severity
(backend/src/services/visualDiffService.ts, `VisualDiffService.calculateSeverity`) -/

/-- `DiffSeverity` values used by the visual diff stage. -/
inductive DiffSeverity
  | none
  | low
  | medium
  | high
  | critical
deriving DecidableEq, Repr

/-- `VisualDiffService.calculateSeverity(diffPercentage, hasLayoutShifts)`:
the ordered if-chain from the source. -/
def calculateSeverity (diffPercentage : ℚ) (hasLayoutShifts : Bool) : DiffSeverity :=
  if diffPercentage = 0 ∧ hasLayoutShifts = false then DiffSeverity.none
  else if hasLayoutShifts = true ∧ (1 : ℚ)/2 < diffPercentage then DiffSeverity.critical
  else if hasLayoutShifts = true ∨ (3 : ℚ)/10 < diffPercentage then DiffSeverity.high
  else if (1 : ℚ)/10 < diffPercentage then DiffSeverity.medium
  else if (1 : ℚ)/20 < diffPercentage then DiffSeverity.low
  else DiffSeverity.none

/-! ## Artifact path sanitization
(`VisualDiffService.sanitizePath` in visualDiffService.ts and the identical
`PlaywrightExecutionService.sanitizePath`)

```ts
return pathStr
  .replace(/^\/+/, '')
  .replace(/\/+/g, '-')
  .replace(/[^a-zA-Z0-9-_]/g, '_')
  .replace(/_+/g, '_')
  .replace(/^_|_$/g, '') || 'index';
```

Each regex replacement is modelled as a function on the character list of the
string. -/

/-- Characters in the class `[a-zA-Z0-9-_]` of the third replacement. -/
def isAllowedChar (c : Char) : Bool :=
  c.isAlpha || c.isDigit || c = '-' || c = '_'

/-- `.replace(/\/+/g, '-')`: every maximal run of slashes becomes one dash.
`inRun` records whether the previous character was part of a slash run. -/
def collapseSlashesAux (inRun : Bool) : List Char → List Char
  | [] => []
  | c :: rest =>
    if c = '/' then
      if inRun then collapseSlashesAux true rest
      else '-' :: collapseSlashesAux true rest
    else c :: collapseSlashesAux false rest

/-- `.replace(/_+/g, '_')`: every maximal run of underscores becomes one
underscore. -/
def collapseUnderscoresAux (inRun : Bool) : List Char → List Char
  | [] => []
  | c :: rest =>
    if c = '_' then
      if inRun then collapseUnderscoresAux true rest
      else '_' :: collapseUnderscoresAux true rest
    else c :: collapseUnderscoresAux false rest

/-- The `^_` half of `.replace(/^_|_$/g, '')`: one leading underscore is
removed. -/
def dropLeadingUnderscore : List Char → List Char
  | '_' :: rest => rest
  | l => l

/-- The `_$` half of `.replace(/^_|_$/g, '')`: one trailing underscore is
removed. -/
def dropTrailingUnderscore (l : List Char) : List Char :=
  (dropLeadingUnderscore l.reverse).reverse

/-- `sanitizePath(pathStr)` from visualDiffService.ts /
playwrightExecutionService.ts.  `|| 'index'` fires exactly when the processed
string is empty (the only falsy string). -/
def sanitizePath (pathStr : String) : String :=
  let l0 := pathStr.data.dropWhile (fun c => c = '/')
  let l1 := collapseSlashesAux false l0
  let l2 := l1.map (fun c => if isAllowedChar c then c else '_')
  let l3 := collapseUnderscoresAux false l2
  let l4 := dropTrailingUnderscore (dropLeadingUnderscore l3)
  if l4.isEmpty then "index" else String.mk l4

/-! ## File storage (backend/src/services/fileStorage.ts and its v2 revision)

`FileStorage.save` is:

```ts
async save(snapshot: StorageSnapshot): Promise<void> {
  await this.ensureDir();
  await fs.writeFile(SNAPSHOT_FILE, JSON.stringify(snapshot, null, 2), 'utf-8');
}
```

We model the filesystem as an association list from paths to file contents and
`save` as the trace of operations it performs, so that crash-atomicity can be
analysed: a crash may happen before any operation or in the middle of a
`writeFile` (leaving an arbitrary prefix of the data in the file);
a `rename` is atomic. -/

/-- A filesystem operation performed by the storage layer. -/
inductive FsOp
  | mkdirRec (path : String)
  | writeFile (path : String) (contents : String)
  | rename (src : String) (dst : String)
deriving DecidableEq, Repr

/-- Whether an operation is a rename. -/
def FsOp.isRename : FsOp → Bool
  | FsOp.rename _ _ => true
  | _ => false

/-- The disk: an association list from path to file contents (first binding
wins). -/
def Disk : Type := List (String × String)

instance : DecidableEq Disk := by
  unfold Disk
  infer_instance

/-- Read a file from the disk. -/
def Disk.read (d : Disk) (p : String) : Option String :=
  (List.find? (fun e => e.1 = p) d).map (fun e => e.2)

/-- Write (create or overwrite) a file. -/
def Disk.write (d : Disk) (p : String) (c : String) : Disk :=
  (p, c) :: List.filter (fun e : String × String => ¬ e.1 = p) d

/-- `DATA_DIR` from backend/src/config/config.ts, as a repo-relative path. -/
def DATA_DIR : String := "backend/data"

/-- `SNAPSHOT_FILE` from backend/src/config/config.ts. -/
def SNAPSHOT_FILE : String := "backend/data/snapshot.json"

/-- Quote a string for the JSON stand-in (escaping is irrelevant to the
properties proved). -/
def jsonStr (s : String) : String := "\"" ++ s ++ "\""

/-- Serialize an optional string. -/
def jsonOptStr : Option String → String
  | Option.none => "null"
  | Option.some s => jsonStr s

/-- Serialize an optional instant. -/
def jsonOptNat : Option Nat → String
  | Option.none => "null"
  | Option.some n => toString n

/-- Serialize a `JobStatus`. -/
def JobStatus.toStr : JobStatus → String
  | JobStatus.pending => "pending"
  | JobStatus.active => "active"
  | JobStatus.completed => "completed"
  | JobStatus.failed => "failed"

/-- Serialize a `RunStatus`. -/
def RunStatus.toStr : RunStatus → String
  | RunStatus.queued => "queued"
  | RunStatus.running => "running"
  | RunStatus.completed => "completed"
  | RunStatus.failed => "failed"

/-- Serialize a legacy `Job`. -/
def serializeJob (j : Job) : String :=
  "\x7bid:" ++ jsonStr j.id ++ ",name:" ++ jsonStr j.name
    ++ ",description:" ++ jsonOptStr j.description
    ++ ",sourceUrl:" ++ jsonStr j.sourceUrl
    ++ ",targetUrl:" ++ jsonStr j.targetUrl
    ++ ",status:" ++ jsonStr j.status.toStr
    ++ ",createdAt:" ++ toString j.createdAt
    ++ ",updatedAt:" ++ toString j.updatedAt ++ "\x7d"

/-- Serialize a `ComparisonJob`. -/
def serializeComparisonJob (j : ComparisonJob) : String :=
  "\x7bid:" ++ jsonStr j.id ++ ",name:" ++ jsonStr j.name
    ++ ",baselineUrl:" ++ jsonStr j.baselineUrl
    ++ ",candidateUrl:" ++ jsonStr j.candidateUrl
    ++ ",status:" ++ jsonStr j.status.toStr
    ++ ",createdAt:" ++ toString j.createdAt
    ++ ",updatedAt:" ++ toString j.updatedAt
    ++ ",migratedFrom:" ++ jsonOptStr j.migratedFrom ++ "\x7d"

/-- Serialize a `Run`. -/
def serializeRun (r : Run) : String :=
  "\x7bid:" ++ jsonStr r.id ++ ",jobId:" ++ jsonStr r.jobId
    ++ ",status:" ++ jsonStr r.status.toStr
    ++ ",triggeredBy:" ++ jsonStr r.triggeredBy
    ++ ",triggeredAt:" ++ toString r.triggeredAt
    ++ ",completedAt:" ++ jsonOptNat r.completedAt ++ "\x7d"

/-- Serialize a `RunArtifact`. -/
def serializeArtifact (a : RunArtifact) : String :=
  "\x7bid:" ++ jsonStr a.id ++ ",runId:" ++ jsonStr a.runId
    ++ ",type:" ++ jsonStr a.type ++ ",label:" ++ jsonStr a.label
    ++ ",path:" ++ jsonStr a.path ++ ",createdAt:" ++ toString a.createdAt ++ "\x7d"

/-- Serialize a list with a given element serializer. -/
def jsonList {α : Type} (f : α → String) (l : List α) : String :=
  "[" ++ String.intercalate "," (l.map f) ++ "]"

/-- Stand-in for `JSON.stringify(snapshot, null, 2)`: a total serialization of
a snapshot to a string (the exact JSON text is irrelevant to the properties
proved; what matters is that `save` writes the serialized snapshot in a single
`writeFile`). -/
def serializeSnapshot (s : StorageSnapshot) : String :=
  "\x7bversion:" ++ jsonOptStr s.version
    ++ ",jobs:" ++ jsonList serializeJob s.jobs
    ++ ",comparisonJobs:" ++ jsonList serializeComparisonJob s.comparisonJobs
    ++ ",runs:" ++ jsonList serializeRun s.runs
    ++ ",artifacts:" ++ jsonList serializeArtifact s.artifacts
    ++ ",metadata:\x7blastMigration:" ++ jsonOptNat s.metadata.lastMigration
    ++ ",migrationNotes:" ++ jsonOptStr s.metadata.migrationNotes ++ "\x7d\x7d"

/-- Effect of completing one operation on the disk.  `mkdir` does not change
any file; `rename` moves the source file over the destination. -/
def FsOp.apply (d : Disk) : FsOp → Disk
  | FsOp.mkdirRec _ => d
  | FsOp.writeFile p c => d.write p c
  | FsOp.rename src dst =>
    match d.read src with
    | some c => (d.write dst c).filter (fun e => ¬ e.1 = src)
    | none => d

/-- Disk states observable if the process crashes in the middle of one
operation.  A partially completed `writeFile` leaves some proper prefix of the
contents in the file; `mkdir` and `rename` offer no intermediate state. -/
def FsOp.crashMidStates (d : Disk) : FsOp → List Disk
  | FsOp.mkdirRec _ => []
  | FsOp.writeFile p c => (List.range c.length).map (fun k => d.write p (String.mk (c.data.take k)))
  | FsOp.rename _ _ => []

/-- All disk states observable if the process crashes at an arbitrary instant
while the trace executes (before, inside or after each operation; the final
state, with no crash, is included). -/
def crashStates (d : Disk) : List FsOp → List Disk
  | [] => [d]
  | op :: rest => d :: op.crashMidStates d ++ crashStates (op.apply d) rest

/-- Run a whole trace to completion. -/
def runTrace (d : Disk) : List FsOp → Disk
  | [] => d
  | op :: rest => runTrace (op.apply d) rest

/-- The trace of filesystem operations performed by `FileStorage.save`:
`ensureDir()` (a recursive mkdir of `DATA_DIR`) followed by a single direct
`writeFile` of the serialized snapshot to `SNAPSHOT_FILE`. -/
def fileStorageSaveTrace (snapshot : StorageSnapshot) : List FsOp :=
  [FsOp.mkdirRec DATA_DIR, FsOp.writeFile SNAPSHOT_FILE (serializeSnapshot snapshot)]

/-! ## Versioned storage with migration (v2 `FileStorage` document)

```ts
const CURRENT_VERSION = '2.0';
async load(): Promise<StorageSnapshot> {
  ...
  const parsed = JSON.parse(buf) as StorageSnapshot;
  if (!parsed.version || parsed.version !== CURRENT_VERSION) {
    return this.migrateSnapshot(parsed);
  }
  return parsed;
  ... // ENOENT: save(emptySnapshot); return emptySnapshot
}
```

`load` is modelled as a function from the parsed on-disk store
(`Option StorageSnapshot`, `none` for a missing file) to the returned snapshot
paired with the store as it is on disk when `load` returns. -/

/-- `CURRENT_VERSION` in the v2 `FileStorage`. -/
def CURRENT_VERSION : String := "2.0"

/-- The v2 `emptySnapshot` constant (it has no legacy `jobs` key). -/
def emptySnapshotV2 : StorageSnapshot :=
  { version := some CURRENT_VERSION, jobs := [], comparisonJobs := [],
    runs := [], artifacts := [], metadata := {} }

/-- The per-job conversion inside `FileStorage.migrateSnapshot`: a legacy
`sourceUrl`/`targetUrl` job becomes a `ComparisonJob` with default crawl
config `{depth: 1, maxPages: 10, followExternalLinks: false}`, an empty
explicit page map, an all-true test matrix and a `migratedFrom` back-pointer;
its timestamps are preserved. -/
def migrateSnapshotJob (job : Job) : ComparisonJob :=
  { id := job.id
    name := job.name
    description := job.description
    baselineUrl := job.sourceUrl
    candidateUrl := job.targetUrl
    crawlConfig := { depth := 1, maxPages := 10, followExternalLinks := false }
    pageMap := []
    testMatrix := { visual := true, functional := true, data := true, seo := true }
    status := job.status
    createdAt := job.createdAt
    updatedAt := job.updatedAt
    migratedFrom := some job.id
    snapshotVersion := some "2.0" }

/-- `FileStorage.migrateSnapshot(oldSnapshot)` (pure; `now` stands for the
`new Date().toISOString()` stamp recorded as `lastMigration`).  The migrated
snapshot keeps runs and artifacts, converts every legacy job and has no
legacy `jobs` key. -/
def migrateSnapshot (oldSnapshot : StorageSnapshot) (now : Nat) : StorageSnapshot :=
  { version := some CURRENT_VERSION
    jobs := []
    comparisonJobs := oldSnapshot.jobs.map migrateSnapshotJob
    runs := oldSnapshot.runs
    artifacts := oldSnapshot.artifacts
    metadata :=
      { lastMigration := some now
        migrationNotes := some "Migrated from v1.0 to v2.0 - converted Jobs to ComparisonJobs" } }

/-- The v2 `FileStorage.load`, over the parsed store.  The result pairs the
snapshot returned to the caller with the on-disk store at return time.  The
version guard `!parsed.version || parsed.version !== CURRENT_VERSION` holds
exactly when `version ≠ some "2.0"` (an empty version string is both falsy and
different from `'2.0'`). -/
def fileStorageLoad (store : Option StorageSnapshot) (now : Nat) :
    StorageSnapshot × Option StorageSnapshot :=
  match store with
  | Option.none => (emptySnapshotV2, some emptySnapshotV2)
  | Option.some parsed =>
    if parsed.version = some CURRENT_VERSION then (parsed, some parsed)
    else (migrateSnapshot parsed now, some parsed)

/-! ## Domain services (backend/src/services/domainServices.ts)

Each service method loads the snapshot, transforms it and saves it; they are
modelled as pure functions of the snapshot, with explicit arguments for
`randomUUID()` results and `new Date()` stamps. -/

/-- `defaultCrawlConfig` from domainServices.ts. -/
def defaultCrawlConfig : CrawlConfig :=
  { depth := 1, maxPages := 10, followExternalLinks := false }

/-- `defaultTestMatrix` from domainServices.ts. -/
def defaultTestMatrix : TestMatrix :=
  { visual := true, functional := true, data := true, seo := true }

/-- Input shape of `ComparisonJobService.createJob`.  The URL fields are typed
as required strings; the runtime check `!input.baselineUrl` additionally
catches the empty string, the only falsy string. -/
structure CreateJobInput where
  name : String
  description : Option String := none
  baselineUrl : String
  candidateUrl : String
  crawlConfig : Option CrawlConfig := none
  pageMap : Option (List PageMapEntry) := none
  testMatrix : Option TestMatrix := none
deriving DecidableEq, Repr

/-- `ComparisonJobService.createJob`: validates that the two URLs are present
(non-falsy) and different, fills defaults, appends the job to the snapshot.
No further validation of the URLs is performed.  On error the snapshot is not
saved, so the stored state is unchanged. -/
def createJob (snapshot : StorageSnapshot) (input : CreateJobInput)
    (freshId : String) (now : Nat) : Except String (StorageSnapshot × ComparisonJob) :=
  if input.baselineUrl.isEmpty || input.candidateUrl.isEmpty then
    Except.error "Both baselineUrl and candidateUrl are required for comparison"
  else if input.baselineUrl = input.candidateUrl then
    Except.error "baselineUrl and candidateUrl must be different"
  else
    let job : ComparisonJob :=
      { id := freshId
        status := JobStatus.pending
        createdAt := now
        updatedAt := now
        pageMap := input.pageMap.getD []
        snapshotVersion := some "2.0"
        crawlConfig := input.crawlConfig.getD defaultCrawlConfig
        testMatrix := input.testMatrix.getD defaultTestMatrix
        name := input.name
        description := input.description
        baselineUrl := input.baselineUrl
        candidateUrl := input.candidateUrl }
    Except.ok ({ snapshot with comparisonJobs := snapshot.comparisonJobs ++ [job] }, job)

/-- JavaScript `String.prototype.includes` used by the route error handler:
true iff `sub` occurs contiguously in `s`. -/
def strIncludes (s sub : String) : Bool :=
  (List.range (s.data.length + 1)).any (fun k => sub.data.isPrefixOf (s.data.drop k))

/-- The `POST /api/jobs` error mapping of the v2 API routes: a service error
whose message includes `'required'` or `'different'` is surfaced as HTTP 400;
any other error is rethrown (surfaced by the framework as 500). -/
def postJobsErrorStatus (msg : String) : Nat :=
  if strIncludes msg "required" || strIncludes msg "different" then 400 else 500

/-- Modelled from the spec: the v2 route registers `createJobSchema` on the
`POST /api/jobs` body, declaring `baselineUrl` and `candidateUrl` with
`format: 'uri'`, which mirrors spec §6's validation rule that both be
absolute URIs.  The JSON-schema validator that enforces the declared format
keyword is the framework's (Fastify/Ajv), not part of src/, so the predicate
follows the spec's words: an absolute `http(s)` URL is a scheme prefix
followed by a non-empty remainder. -/
def isAbsoluteHttpUrl (s : String) : Bool :=
  ("http://".data.isPrefixOf s.data && 7 < s.length)
    || ("https://".data.isPrefixOf s.data && 8 < s.length)

/-- The raw `POST /api/jobs` request body (`CreateJobBody` in the v2 routes):
every field may be absent before schema validation runs. -/
structure CreateJobBody where
  name : Option String := none
  description : Option String := none
  baselineUrl : Option String := none
  candidateUrl : Option String := none
  crawlConfig : Option CrawlConfig := none
  pageMap : Option (List PageMapEntry) := none
  testMatrix : Option TestMatrix := none
deriving DecidableEq, Repr

/-- Modelled from the spec: the body validation `createJobSchema` declared in
the v2 route registration — `required: [name, baselineUrl, candidateUrl]`,
`name` of `minLength` 1, both URLs of `format: 'uri'` — with the format
keyword enforced as spec §6's validation rules state (the schema validator
itself is framework code outside src/; the declared constraints on the
optional config objects are not needed by the properties proved and are
omitted). -/
def createJobSchemaOk (body : CreateJobBody) : Bool :=
  (match body.name with
   | Option.some n => !n.isEmpty
   | Option.none => false)
  && (match body.baselineUrl with
      | Option.some u => isAbsoluteHttpUrl u
      | Option.none => false)
  && (match body.candidateUrl with
      | Option.some u => isAbsoluteHttpUrl u
      | Option.none => false)

/-- The `createInput` object the v2 `POST /api/jobs` handler builds from a
schema-validated body (the `getD` defaults are unreachable once the schema's
`required` check has passed). -/
def bodyToInput (body : CreateJobBody) : CreateJobInput :=
  { name := body.name.getD ""
    description := body.description
    baselineUrl := body.baselineUrl.getD ""
    candidateUrl := body.candidateUrl.getD ""
    crawlConfig := body.crawlConfig
    pageMap := body.pageMap
    testMatrix := body.testMatrix }

/-- The `POST /api/jobs` route of the v2 API over the stored snapshot:
Fastify validates the body against the registered `createJobSchema` and
rejects with 400 before the handler runs; otherwise the handler calls
`createJob` and responds 201 with the new snapshot persisted, mapping a
service error to a status with the snapshot unchanged. -/
def postJobs (snapshot : StorageSnapshot) (body : CreateJobBody)
    (freshId : String) (now : Nat) : Nat × StorageSnapshot :=
  if createJobSchemaOk body = true then
    match createJob snapshot (bodyToInput body) freshId now with
    | Except.ok (next, _) => (201, next)
    | Except.error msg => (postJobsErrorStatus msg, snapshot)
  else (400, snapshot)

/-- The legacy-job fallback conversion inside `RunService.triggerComparisonRun`. -/
def legacyToComparison (legacyJob : Job) : ComparisonJob :=
  { id := legacyJob.id
    name := legacyJob.name
    description := legacyJob.description
    baselineUrl := legacyJob.sourceUrl
    candidateUrl := legacyJob.targetUrl
    crawlConfig := defaultCrawlConfig
    pageMap := []
    testMatrix := defaultTestMatrix
    status := legacyJob.status
    createdAt := legacyJob.createdAt
    updatedAt := legacyJob.updatedAt }

/-- `RunService.triggerComparisonRun`: resolves the job (current first, then
legacy), enforces that both URLs are present and different, creates a run in
status `queued` with `triggeredAt := now` and no `completedAt`, and prepends
it to the stored runs. -/
def triggerComparisonRun (snapshot : StorageSnapshot) (jobId triggeredBy : String)
    (freshRunId : String) (now : Nat) : Except String (StorageSnapshot × Run) :=
  let foundJob : Option ComparisonJob :=
    match snapshot.comparisonJobs.find? (fun j => j.id == jobId) with
    | Option.some j => some j
    | Option.none => (snapshot.jobs.find? (fun j => j.id == jobId)).map legacyToComparison
  match foundJob with
  | Option.none => Except.error ("Job " ++ jobId ++ " not found")
  | Option.some comparisonJob =>
    if comparisonJob.baselineUrl.isEmpty || comparisonJob.candidateUrl.isEmpty then
      Except.error "Both baselineUrl and candidateUrl are required for comparison"
    else if comparisonJob.baselineUrl = comparisonJob.candidateUrl then
      Except.error "baselineUrl and candidateUrl must be different for comparison"
    else
      let run : Run :=
        { id := freshRunId
          jobId := jobId
          status := RunStatus.queued
          triggeredBy := triggeredBy
          triggeredAt := now
          completedAt := none }
      Except.ok ({ snapshot with runs := run :: snapshot.runs }, run)

/-- `ComparisonJobService.executePlaywrightRun`, as the sequence of snapshots
it saves.  If the run id is not found nothing is saved.  Otherwise it first
saves the snapshot with the run marked `running` (spreading the loaded run, so
`completedAt` is untouched), performs the capture (`captureOk` abstracts the
success of `runTwoSiteCapture`; `newArtifacts` the artifact records it
registers, or the error-log artifact on failure), and finally saves the
snapshot with the run marked `completed` or `failed` and
`completedAt := completedNow`. -/
def executePlaywrightRun (snapshot : StorageSnapshot) (runId : String)
    (captureOk : Bool) (newArtifacts : List RunArtifact) (completedNow : Nat) :
    List StorageSnapshot :=
  match snapshot.runs.find? (fun r => r.id == runId) with
  | Option.none => []
  | Option.some run =>
    let runningRun : Run := { run with status := RunStatus.running }
    let runningSnapshot : StorageSnapshot :=
      { snapshot with runs := snapshot.runs.map (fun r => if r.id == runId then runningRun else r) }
    let terminalRun : Run :=
      if captureOk then { runningRun with status := RunStatus.completed, completedAt := some completedNow }
      else { runningRun with status := RunStatus.failed, completedAt := some completedNow }
    let finalSnapshot : StorageSnapshot :=
      { runningSnapshot with
        runs := runningSnapshot.runs.map (fun r => if r.id == runId then terminalRun else r)
        artifacts := runningSnapshot.artifacts ++ newArtifacts }
    [runningSnapshot, finalSnapshot]

/-- The per-job conversion inside `ComparisonJobService.migrateLegacyJobs`
(unlike the storage-layer migration it stamps `updatedAt` with the migration
time). -/
def migrateLegacyJob (now : Nat) (job : Job) : ComparisonJob :=
  { id := job.id
    name := job.name
    description := job.description
    baselineUrl := job.sourceUrl
    candidateUrl := job.targetUrl
    crawlConfig := defaultCrawlConfig
    pageMap := []
    testMatrix := defaultTestMatrix
    status := job.status
    createdAt := job.createdAt
    updatedAt := now
    migratedFrom := some job.id
    snapshotVersion := some "2.0" }

/-- `ComparisonJobService.migrateLegacyJobs`: returns `(snapshot, 0)` without
saving when there are no legacy jobs; otherwise converts every legacy job,
appends them to `comparisonJobs`, clears `jobs`, records migration metadata
and returns the count. -/
def migrateLegacyJobs (snapshot : StorageSnapshot) (now : Nat) : StorageSnapshot × Nat :=
  if snapshot.jobs.isEmpty then (snapshot, 0)
  else
    let migratedJobs := snapshot.jobs.map (migrateLegacyJob now)
    ({ snapshot with
        comparisonJobs := snapshot.comparisonJobs ++ migratedJobs
        jobs := []
        metadata :=
          { snapshot.metadata with
            lastMigration := some now
            migrationNotes := some (s!"Migrated {migratedJobs.length} legacy jobs to ComparisonJob format") } },
      migratedJobs.length)

/-! ## Page matching (backend/src/services/crawlAgent.ts, `CrawlAgent.matchPages`)

`matchPages` pushes matches into a single `matches` array in three passes:

1. explicit `pageMap` pairs (confidence 1.0, no deduplication at all);
2. exact normalized-path equality (confidence 0.9; skips baseline pages whose
   URL already appears as the baseline of a match, but performs no check on
   the candidate side);
3. case-insensitive trimmed title equality (confidence 0.7; skips matched
   baseline pages and, inside the candidate search, matched candidate pages
   and falsy titles). -/

/-- `CrawledPage` from crawlAgent.ts (`metadata` omitted: unused by
`matchPages`). -/
structure CrawledPage where
  url : String
  normalizedPath : String
  title : Option String := none
  statusCode : Nat := 200
  links : List String := []
deriving DecidableEq, Repr

/-- `CrawlResult` from crawlAgent.ts (log fields omitted: unused by
`matchPages`). -/
structure CrawlResult where
  baseUrl : String
  pages : List CrawledPage
deriving DecidableEq, Repr

/-- `MatchedPage` from crawlAgent.ts. -/
structure MatchedPage where
  baseline : CrawledPage
  candidate : CrawledPage
  confidence : ℚ
  matchReason : String
deriving DecidableEq, Repr

/-- JavaScript `String.prototype.endsWith`, on the character lists. -/
def strEndsWith (s suffix : String) : Bool :=
  List.isSuffixOf suffix.data s.data

/-- JavaScript falsiness of an optional title: absent or the empty string. -/
def titleFalsy : Option String → Bool
  | Option.none => true
  | Option.some t => t.isEmpty

/-- `title.toLowerCase().trim()` as used by the title rule. -/
def normalizeTitle (t : String) : String :=
  t.toLower.trim

/-- Pass 1 of `matchPages`: for each explicit `pageMap` entry, find (in
discovery order) a baseline page whose normalized path equals — or whose URL
ends with — `baselinePath`, and likewise a candidate page for
`candidatePath`; push a confidence-1.0 match when both exist. -/
def matchExplicit (bs cs : List CrawledPage) : List PageMapEntry → List MatchedPage
  | [] => []
  | mapping :: rest =>
    match bs.find? (fun p => p.normalizedPath == mapping.baselinePath || strEndsWith p.url mapping.baselinePath),
          cs.find? (fun p => p.normalizedPath == mapping.candidatePath || strEndsWith p.url mapping.candidatePath) with
    | Option.some baselinePage, Option.some candidatePage =>
      { baseline := baselinePage, candidate := candidatePage,
        confidence := 1, matchReason := "Explicit pageMap mapping" }
        :: matchExplicit bs cs rest
    | _, _ => matchExplicit bs cs rest

/-- Pass 2 of `matchPages`: exact normalized-path equality.  A baseline page
already matched (by baseline URL) is skipped; the candidate search has no
such guard. -/
def matchByPath (cs : List CrawledPage) : List MatchedPage → List CrawledPage → List MatchedPage
  | acc, [] => acc
  | acc, baselinePage :: rest =>
    if acc.any (fun m => m.baseline.url == baselinePage.url) then
      matchByPath cs acc rest
    else
      match cs.find? (fun p => p.normalizedPath == baselinePage.normalizedPath) with
      | Option.some candidatePage =>
        matchByPath cs
          (acc ++ [{ baseline := baselinePage, candidate := candidatePage,
                     confidence := 9/10, matchReason := "Exact path match" }]) rest
      | Option.none => matchByPath cs acc rest

/-- Pass 3 of `matchPages`: case-insensitive trimmed title equality.  Skips
already-matched baseline pages and pages with falsy titles; the candidate
search also skips already-matched candidate pages. -/
def matchByTitle (cs : List CrawledPage) : List MatchedPage → List CrawledPage → List MatchedPage
  | acc, [] => acc
  | acc, baselinePage :: rest =>
    if acc.any (fun m => m.baseline.url == baselinePage.url) then
      matchByTitle cs acc rest
    else if titleFalsy baselinePage.title then
      matchByTitle cs acc rest
    else
      match cs.find? (fun p =>
          !(acc.any (fun m => m.candidate.url == p.url)) &&
          !(titleFalsy p.title) &&
          (normalizeTitle (p.title.getD "") == normalizeTitle (baselinePage.title.getD ""))) with
      | Option.some candidatePage =>
        matchByTitle cs
          (acc ++ [{ baseline := baselinePage, candidate := candidatePage,
                     confidence := 7/10, matchReason := "Title match" }]) rest
      | Option.none => matchByTitle cs acc rest

/-- The state of the `matches` array after pass 1 of `matchPages`
(`if (existingPageMap && existingPageMap.length > 0)`). -/
def matchPagesExplicitStep (baselineResult candidateResult : CrawlResult)
    (existingPageMap : Option (List PageMapEntry)) : List MatchedPage :=
  match existingPageMap with
  | Option.some pm =>
    if 0 < pm.length then matchExplicit baselineResult.pages candidateResult.pages pm else []
  | Option.none => []

/-- `CrawlAgent.matchPages(baselineResult, candidateResult, existingPageMap?)`:
the three passes over a shared `matches` accumulator. -/
def matchPages (baselineResult candidateResult : CrawlResult)
    (existingPageMap : Option (List PageMapEntry)) : List MatchedPage :=
  let afterExplicit := matchPagesExplicitStep baselineResult candidateResult existingPageMap
  let afterPath := matchByPath candidateResult.pages afterExplicit baselineResult.pages
  matchByTitle candidateResult.pages afterPath baselineResult.pages

/-! ## Capture ordering
(backend/src/runner/playwrightRunner.ts `runTwoSiteCapture`, and
`PlaywrightExecutionService.executeComparison`)

`runTwoSiteCapture` awaits `captureSite(baselineUrl, 'baseline')` to
completion before starting `captureSite(candidateUrl, 'candidate')`; its
capture-event trace is modelled directly.

`executeComparison` instead runs the two sites with
`Promise.all([executeSite(..., 'baseline', ...), executeSite(..., 'candidate', ...)])`.
Each `executeSite` captures its page list sequentially, but the two loops run
concurrently and interleave at their await points, so the admissible
schedules are all interleavings of the two per-site event sequences. -/

/-- The two sides of a capture. -/
inductive Site
  | baseline
  | candidate
deriving DecidableEq, Repr

/-- The evidence files `captureSite` writes for one site, in program order. -/
def captureSiteTrace (siteName : Site) : List (Site × String) :=
  [(siteName, "screenshot-full.png"), (siteName, "snapshot.html"),
   (siteName, "console.json"), (siteName, "network.json"), (siteName, "metadata.json")]

/-- The capture-event trace of `runTwoSiteCapture`: the baseline site is
captured to completion, then the candidate site. -/
def runTwoSiteCaptureTrace : List (Site × String) :=
  captureSiteTrace Site.baseline ++ captureSiteTrace Site.candidate

/-- All interleavings of two sequences that preserve the order within each
(fuel-indexed so that the kernel can evaluate it). -/
def interleavingsAux {α : Type} : Nat → List α → List α → List (List α)
  | 0, _, _ => [[]]
  | _ + 1, [], ys => [ys]
  | _ + 1, x :: xs, [] => [x :: xs]
  | n + 1, x :: xs, y :: ys =>
    (interleavingsAux n xs (y :: ys)).map (fun t => x :: t)
      ++ (interleavingsAux n (x :: xs) ys).map (fun t => y :: t)

/-- All interleavings of two sequences. -/
def interleavings {α : Type} (xs ys : List α) : List (List α) :=
  interleavingsAux (xs.length + ys.length) xs ys

/-- The sequential per-site event list of `executeSite`: one capture event per
matched page, in list order (events are indexed by position in the
matched-pages list). -/
def executeSiteEvents (siteName : Site) (pageCount : Nat) : List (Site × Nat) :=
  (List.range pageCount).map (fun i => (siteName, i))

/-- The admissible capture schedules of
`executeComparison(baselineUrl, candidateUrl, matchedPages, runId)`: all
interleavings of the two concurrent `executeSite` loops over the matched
pages. -/
def executeComparisonTraces (pageCount : Nat) : List (List (Site × Nat)) :=
  interleavings (executeSiteEvents Site.baseline pageCount)
    (executeSiteEvents Site.candidate pageCount)

/-- Position of the first occurrence of an event in a trace. -/
def eventIdx (t : List (Site × Nat)) (e : Site × Nat) : Nat :=
  t.findIdx (fun x => x == e)

/-- The claimed per-page ordering: in trace `t`, the baseline capture of every
page precedes the candidate capture of the same page. -/
def baselineFirstPerPage (pageCount : Nat) (t : List (Site × Nat)) : Bool :=
  (List.range pageCount).all
    (fun i => eventIdx t (Site.baseline, i) < eventIdx t (Site.candidate, i))

/-- All-baseline-before-any-candidate ordering of a named-artifact trace:
after the leading baseline events only candidate events occur. -/
def noBaselineAfterCandidate (t : List (Site × String)) : Bool :=
  (t.dropWhile (fun e => e.1 == Site.baseline)).all (fun e => e.1 == Site.candidate)

/-! ## Concrete values used by counterexamples and witnesses -/

/-- A pre-save snapshot (all defaults). -/
def exSnapOld : StorageSnapshot := {}

/-- A post-save snapshot differing from `exSnapOld`. -/
def exSnapNew : StorageSnapshot := { version := some "2.0" }

/-- Disk holding the serialized pre-save snapshot at `SNAPSHOT_FILE`. -/
def exDiskPre : Disk := [(SNAPSHOT_FILE, serializeSnapshot exSnapOld)]

/-- The disk after a crash one character into the direct `writeFile` of the
post-save snapshot. -/
def exDiskCrashed : Disk := Disk.write exDiskPre SNAPSHOT_FILE "\x7b"

/-- A legacy job as stored by a v1 snapshot. -/
def exLegacyJob : Job :=
  { id := "j1", name := "Legacy", description := none,
    sourceUrl := "https://a.test", targetUrl := "https://b.test",
    status := JobStatus.pending, createdAt := 1, updatedAt := 2 }

/-- A v1 on-disk snapshot: no version field, one legacy job. -/
def exLegacySnap : StorageSnapshot :=
  { version := none, jobs := [exLegacyJob], comparisonJobs := [],
    runs := [], artifacts := [], metadata := {} }

/-- A stored comparison job with distinct absolute URLs. -/
def exJob : ComparisonJob :=
  { id := "job1", name := "J", description := none,
    baselineUrl := "https://a.test", candidateUrl := "https://b.test",
    crawlConfig := defaultCrawlConfig, pageMap := [], testMatrix := defaultTestMatrix,
    status := JobStatus.pending, createdAt := 0, updatedAt := 0 }

/-- A snapshot holding `exJob`. -/
def exSnapWithJob : StorageSnapshot := { comparisonJobs := [exJob] }

/-- The run created by triggering `exJob` at instant 3 with id `run1`. -/
def exRun : Run :=
  { id := "run1", jobId := "job1", status := RunStatus.queued,
    triggeredBy := "tester", triggeredAt := 3, completedAt := none }

/-- `exSnapWithJob` after the queued run is prepended. -/
def exSnapWithRun : StorageSnapshot := { comparisonJobs := [exJob], runs := [exRun] }

/-- Create-job request body whose baseline URL is present but not a
syntactically valid absolute URL. -/
def exBadUrlBody : CreateJobBody :=
  { name := some "X", baselineUrl := some "not-a-url",
    candidateUrl := some "https://b.test" }

/-- Create-job request body with identical valid URLs (scenario S2 of the
spec). -/
def exDupUrlBody : CreateJobBody :=
  { name := some "X", baselineUrl := some "https://a.test",
    candidateUrl := some "https://a.test" }

/-- Baseline page `/p1` for the page-matching counterexample. -/
def exBase1 : CrawledPage := { url := "https://b.test/p1", normalizedPath := "/p1" }

/-- Baseline page `/q1` for the page-matching counterexample. -/
def exBase2 : CrawledPage := { url := "https://b.test/q1", normalizedPath := "/q1" }

/-- Candidate page `/q1` for the page-matching counterexample. -/
def exCand1 : CrawledPage := { url := "https://c.test/q1", normalizedPath := "/q1" }

/-- Explicit page-map entry pairing `/p1` with `/q1`. -/
def exMapEntry : PageMapEntry := { baselinePath := "/p1", candidatePath := "/q1" }

/-- The explicit-rule pair produced in the page-matching counterexample. -/
def exExplicitPair : MatchedPage :=
  { baseline := exBase1, candidate := exCand1, confidence := 1,
    matchReason := "Explicit pageMap mapping" }

/-- The path-rule pair produced in the page-matching counterexample; it
re-uses the candidate page of `exExplicitPair`. -/
def exPathPair : MatchedPage :=
  { baseline := exBase2, candidate := exCand1, confidence := 9/10,
    matchReason := "Exact path match" }

/-- Baseline crawl result for the page-matching counterexample. -/
def exBaseCrawl : CrawlResult := { baseUrl := "https://b.test", pages := [exBase1, exBase2] }

/-- Candidate crawl result for the page-matching counterexample. -/
def exCandCrawl : CrawlResult := { baseUrl := "https://c.test", pages := [exCand1] }

/-! # Theorems -/

/-- **C1**: for every generated report, the Go/No-Go decision equals `no-go`
whenever the overall risk score is ≥ 75 or the reasoner's `overallPass` is
false; it equals `go` only when (in fact, exactly when, outside the no-go
region) the overall risk score is < 50 and there are no critical issues; in
every other case it equals `conditional`. -/
theorem goNoGoDecision_cases (overall : ℚ) (overallPass : Bool) (criticalIssues : Nat) :
    ((75 ≤ overall ∨ overallPass = false) →
      goNoGoDecision overall overallPass criticalIssues = GoNoGo.noGo)
    ∧ (goNoGoDecision overall overallPass criticalIssues = GoNoGo.go ↔
        ¬(75 ≤ overall ∨ overallPass = false) ∧ overall < 50 ∧ criticalIssues = 0)
    ∧ ((¬(75 ≤ overall ∨ overallPass = false) ∧ ¬(overall < 50 ∧ criticalIssues = 0)) →
        goNoGoDecision overall overallPass criticalIssues = GoNoGo.conditional) := by
  refine ⟨?_, ⟨?_, ?_⟩, ?_⟩
  · intro h1
    simp [goNoGoDecision, h1]
  · intro hgo
    by_cases h1 : 75 ≤ overall ∨ overallPass = false
    · simp [goNoGoDecision, h1] at hgo
    · by_cases h2 : 50 ≤ overall ∨ 0 < criticalIssues
      · simp [goNoGoDecision, h1, h2] at hgo
      · push_neg at h2
        exact ⟨h1, h2.1, Nat.le_zero.mp h2.2⟩
  · rintro ⟨h1, h2, h3⟩
    have h2' : ¬(50 ≤ overall ∨ 0 < criticalIssues) := by
      push_neg
      exact ⟨not_le.mp (fun hle => absurd h2 (not_lt.mpr hle)), by omega⟩
    simp [goNoGoDecision, h1, h2']
  · rintro ⟨h1, h2⟩
    have h2' : 50 ≤ overall ∨ 0 < criticalIssues := by
      by_contra hc
      push_neg at hc
      exact h2 ⟨hc.1, Nat.le_zero.mp hc.2⟩
    simp [goNoGoDecision, h1, h2']

/-- Witness for C1 at concrete inputs: risk 80 → no-go, risk 30 with no
critical issues → go, risk 60 → conditional. -/
theorem goNoGoDecision_cases_witness :
    goNoGoDecision 80 true 0 = GoNoGo.noGo
    ∧ goNoGoDecision 30 true 0 = GoNoGo.go
    ∧ goNoGoDecision 60 true 0 = GoNoGo.conditional :=
  ⟨(goNoGoDecision_cases 80 true 0).1 (Or.inl (by norm_num)),
   (goNoGoDecision_cases 30 true 0).2.1.mpr
     ⟨by push_neg; exact ⟨by norm_num, by simp⟩, by norm_num, rfl⟩,
   (goNoGoDecision_cases 60 true 0).2.2
     ⟨by push_neg; exact ⟨by norm_num, by simp⟩, by push_neg; intro h; norm_num at h⟩⟩

/-- **C5**: visual diff severity is a pure function of
`(diffRatio, hasLayoutShift)`, and the ordered conditions of the source
resolve to this case analysis: `critical` iff layout shift with ratio > 0.5;
`high` iff layout shift with ratio ≤ 0.5 or no shift with ratio > 0.3;
`medium` iff no shift and 0.1 < ratio ≤ 0.3; `low` iff no shift and
0.05 < ratio ≤ 0.1; `none` iff no shift and ratio ≤ 0.05 (including the
zero-diff row of the table). -/
theorem calculateSeverity_cases (diffRatio : ℚ) (hasLayoutShift : Bool) :
    (calculateSeverity diffRatio hasLayoutShift = DiffSeverity.critical ↔
      hasLayoutShift = true ∧ 1/2 < diffRatio)
    ∧ (calculateSeverity diffRatio hasLayoutShift = DiffSeverity.high ↔
      (hasLayoutShift = true ∧ diffRatio ≤ 1/2) ∨ (hasLayoutShift = false ∧ 3/10 < diffRatio))
    ∧ (calculateSeverity diffRatio hasLayoutShift = DiffSeverity.medium ↔
      hasLayoutShift = false ∧ 1/10 < diffRatio ∧ diffRatio ≤ 3/10)
    ∧ (calculateSeverity diffRatio hasLayoutShift = DiffSeverity.low ↔
      hasLayoutShift = false ∧ 1/20 < diffRatio ∧ diffRatio ≤ 1/10)
    ∧ (calculateSeverity diffRatio hasLayoutShift = DiffSeverity.none ↔
      hasLayoutShift = false ∧ diffRatio ≤ 1/20) := by
  have hval : calculateSeverity diffRatio hasLayoutShift =
      if hasLayoutShift = true then
        (if 1/2 < diffRatio then DiffSeverity.critical else DiffSeverity.high)
      else if 3/10 < diffRatio then DiffSeverity.high
      else if 1/10 < diffRatio then DiffSeverity.medium
      else if 1/20 < diffRatio then DiffSeverity.low
      else DiffSeverity.none := by
    cases hasLayoutShift
    · by_cases h0 : diffRatio = 0
      · subst h0
        simp [calculateSeverity]
        norm_num
      · simp [calculateSeverity, h0]
    · simp [calculateSeverity]
  rw [hval]
  cases hasLayoutShift
  · rw [if_neg (by simp)]
    by_cases h3 : (3 : ℚ)/10 < diffRatio
    · rw [if_pos h3]
      exact ⟨iff_of_false (by simp) (by rintro ⟨h, -⟩; exact Bool.noConfusion h),
        iff_of_true rfl (Or.inr ⟨rfl, h3⟩),
        iff_of_false (by simp) (by rintro ⟨-, -, hle⟩; linarith),
        iff_of_false (by simp) (by rintro ⟨-, -, hle⟩; linarith),
        iff_of_false (by simp) (by rintro ⟨-, hle⟩; linarith)⟩
    · rw [if_neg h3]
      by_cases h1 : (1 : ℚ)/10 < diffRatio
      · rw [if_pos h1]
        refine ⟨iff_of_false (by simp) (by rintro ⟨h, -⟩; exact Bool.noConfusion h),
          iff_of_false (by simp) ?_,
          iff_of_true rfl ⟨rfl, h1, not_lt.mp h3⟩,
          iff_of_false (by simp) (by rintro ⟨-, -, hle⟩; linarith),
          iff_of_false (by simp) (by rintro ⟨-, hle⟩; linarith)⟩
        rintro (⟨h, -⟩ | ⟨-, hlt⟩)
        · exact Bool.noConfusion h
        · exact h3 hlt
      · rw [if_neg h1]
        by_cases h05 : (1 : ℚ)/20 < diffRatio
        · rw [if_pos h05]
          refine ⟨iff_of_false (by simp) (by rintro ⟨h, -⟩; exact Bool.noConfusion h),
            iff_of_false (by simp) ?_,
            iff_of_false (by simp) (by rintro ⟨-, hlt, -⟩; exact h1 hlt),
            iff_of_true rfl ⟨rfl, h05, not_lt.mp h1⟩,
            iff_of_false (by simp) (by rintro ⟨-, hle⟩; linarith)⟩
          rintro (⟨h, -⟩ | ⟨-, hlt⟩)
          · exact Bool.noConfusion h
          · exact h3 hlt
        · rw [if_neg h05]
          refine ⟨iff_of_false (by simp) (by rintro ⟨h, -⟩; exact Bool.noConfusion h),
            iff_of_false (by simp) ?_,
            iff_of_false (by simp) (by rintro ⟨-, hlt, -⟩; exact h1 hlt),
            iff_of_false (by simp) (by rintro ⟨-, hlt, -⟩; exact h05 hlt),
            iff_of_true rfl ⟨rfl, not_lt.mp h05⟩⟩
          rintro (⟨h, -⟩ | ⟨-, hlt⟩)
          · exact Bool.noConfusion h
          · exact h3 hlt
  · rw [if_pos rfl]
    by_cases hc : (1 : ℚ)/2 < diffRatio
    · rw [if_pos hc]
      refine ⟨iff_of_true rfl ⟨rfl, hc⟩,
        iff_of_false (by simp) ?_,
        iff_of_false (by simp) (by rintro ⟨h, -⟩; exact Bool.noConfusion h),
        iff_of_false (by simp) (by rintro ⟨h, -⟩; exact Bool.noConfusion h),
        iff_of_false (by simp) (by rintro ⟨h, -⟩; exact Bool.noConfusion h)⟩
      rintro (⟨-, hle⟩ | ⟨h, -⟩)
      · linarith
      · exact Bool.noConfusion h
    · rw [if_neg hc]
      exact ⟨iff_of_false (by simp) (by rintro ⟨-, hlt⟩; exact hc hlt),
        iff_of_true rfl (Or.inl ⟨rfl, not_lt.mp hc⟩),
        iff_of_false (by simp) (by rintro ⟨h, -⟩; exact Bool.noConfusion h),
        iff_of_false (by simp) (by rintro ⟨h, -⟩; exact Bool.noConfusion h),
        iff_of_false (by simp) (by rintro ⟨h, -⟩; exact Bool.noConfusion h)⟩

/-- Witness for C5 at concrete inputs: ratio 0.6 with a layout shift is
critical; ratio 0.2 without a shift is medium; ratio 0 without a shift is
none. -/
theorem calculateSeverity_cases_witness :
    calculateSeverity (6/10) true = DiffSeverity.critical
    ∧ calculateSeverity (2/10) false = DiffSeverity.medium
    ∧ calculateSeverity 0 false = DiffSeverity.none :=
  ⟨(calculateSeverity_cases (6/10) true).1.mpr ⟨rfl, by norm_num⟩,
   (calculateSeverity_cases (2/10) false).2.2.1.mpr ⟨rfl, by norm_num, by norm_num⟩,
   (calculateSeverity_cases 0 false).2.2.2.2.mpr ⟨rfl, by norm_num⟩⟩

/-- `migrateLegacyJobs` on a snapshot without legacy jobs returns the
snapshot unchanged with count 0 (and saves nothing). -/
theorem migrateLegacyJobs_of_no_legacy {s : StorageSnapshot} (t : Nat)
    (h : s.jobs.isEmpty = true) : migrateLegacyJobs s t = (s, 0) := by
  simp [migrateLegacyJobs, h]

/-- Characters produced by the slash-collapsing pass are non-slash input
characters or dashes. -/
theorem mem_collapseSlashesAux {c : Char} :
    ∀ (inRun : Bool) (l : List Char), c ∈ collapseSlashesAux inRun l →
      (c ∈ l ∧ c ≠ '/') ∨ c = '-' := by
  intro inRun l
  induction l generalizing inRun with
  | nil => simp [collapseSlashesAux]
  | cons x xs ih =>
    simp only [collapseSlashesAux]
    split_ifs with hx hb
    · intro h
      rcases ih _ h with ⟨hm, hne⟩ | hd
      · exact Or.inl ⟨List.mem_cons_of_mem _ hm, hne⟩
      · exact Or.inr hd
    · intro h
      rcases List.mem_cons.mp h with rfl | h'
      · exact Or.inr rfl
      · rcases ih _ h' with ⟨hm, hne⟩ | hd
        · exact Or.inl ⟨List.mem_cons_of_mem _ hm, hne⟩
        · exact Or.inr hd
    · intro h
      rcases List.mem_cons.mp h with rfl | h'
      · exact Or.inl ⟨List.mem_cons_self _ _, hx⟩
      · rcases ih _ h' with ⟨hm, hne⟩ | hd
        · exact Or.inl ⟨List.mem_cons_of_mem _ hm, hne⟩
        · exact Or.inr hd

/-- Characters produced by the underscore-collapsing pass are input
characters or underscores. -/
theorem mem_collapseUnderscoresAux {c : Char} :
    ∀ (inRun : Bool) (l : List Char), c ∈ collapseUnderscoresAux inRun l →
      c ∈ l ∨ c = '_' := by
  intro inRun l
  induction l generalizing inRun with
  | nil => simp [collapseUnderscoresAux]
  | cons x xs ih =>
    simp only [collapseUnderscoresAux]
    split_ifs with hx hb
    · intro h
      rcases ih _ h with hm | hd
      · exact Or.inl (List.mem_cons_of_mem _ hm)
      · exact Or.inr hd
    · intro h
      rcases List.mem_cons.mp h with rfl | h'
      · exact Or.inr rfl
      · rcases ih _ h' with hm | hd
        · exact Or.inl (List.mem_cons_of_mem _ hm)
        · exact Or.inr hd
    · intro h
      rcases List.mem_cons.mp h with rfl | h'
      · exact Or.inl (List.mem_cons_self _ _)
      · rcases ih _ h' with hm | hd
        · exact Or.inl (List.mem_cons_of_mem _ hm)
        · exact Or.inr hd

/-- Dropping a leading underscore only removes characters. -/
theorem mem_dropLeadingUnderscore {c : Char} {l : List Char}
    (h : c ∈ dropLeadingUnderscore l) : c ∈ l := by
  unfold dropLeadingUnderscore at h
  split at h
  · exact List.mem_cons_of_mem _ h
  · exact h

/-- Dropping a trailing underscore only removes characters. -/
theorem mem_dropTrailingUnderscore {c : Char} {l : List Char}
    (h : c ∈ dropTrailingUnderscore l) : c ∈ l := by
  unfold dropTrailingUnderscore at h
  rw [List.mem_reverse] at h
  have h2 := mem_dropLeadingUnderscore h
  rwa [List.mem_reverse] at h2

/-- **C10**: for every input string, `sanitizePath` returns a non-empty string
all of whose characters lie in `[A-Za-z0-9_-]`; in particular the result never
contains a path separator, so per-page artifact file names stay inside the
run's own artifact subtree. -/
theorem sanitizePath_safe (pathStr : String) :
    sanitizePath pathStr ≠ ""
    ∧ (∀ c ∈ (sanitizePath pathStr).data, isAllowedChar c = true)
    ∧ '/' ∉ (sanitizePath pathStr).data := by
  have hchars : ∀ c ∈ (sanitizePath pathStr).data, isAllowedChar c = true := by
    intro c hc
    simp only [sanitizePath] at hc
    split at hc
    · have : c = 'i' ∨ c = 'n' ∨ c = 'd' ∨ c = 'e' ∨ c = 'x' := by
        simpa using hc
      rcases this with rfl | rfl | rfl | rfl | rfl <;> decide
    · have h4 : c ∈ dropTrailingUnderscore (dropLeadingUnderscore
          (collapseUnderscoresAux false
            ((collapseSlashesAux false (pathStr.data.dropWhile (fun c => c = '/'))).map
              (fun c => if isAllowedChar c then c else '_')))) := hc
      have h3 := mem_dropLeadingUnderscore (mem_dropTrailingUnderscore h4)
      rcases mem_collapseUnderscoresAux _ _ h3 with h2 | rfl
      · rcases List.mem_map.mp h2 with ⟨a, _, rfl⟩
        by_cases ha : isAllowedChar a = true
        · rw [if_pos ha]
          exact ha
        · rw [if_neg ha]
          decide
      · decide
  refine ⟨?_, hchars, ?_⟩
  · simp only [sanitizePath]
    split
    · decide
    · rename_i hne
      intro heq
      have h2 := congrArg String.data heq
      exact hne (by simpa using h2)
  · intro hmem
    have := hchars '/' hmem
    simp [isAllowedChar] at this

/-- Witness for C10 at a concrete input containing slashes, spaces and dots. -/
theorem sanitizePath_safe_witness :
    sanitizePath "/products/item 1.html" ≠ ""
    ∧ '/' ∉ (sanitizePath "/products/item 1.html").data :=
  ⟨(sanitizePath_safe "/products/item 1.html").1,
   (sanitizePath_safe "/products/item 1.html").2.2⟩

/-- **C9**: `migrateLegacyJobs` is idempotent: the first call converts each
legacy job into a `ComparisonJob` (appended to `comparisonJobs`, legacy list
cleared) and returns the number migrated, and a second call on the resulting
snapshot returns that snapshot unchanged with count 0. -/
theorem migrateLegacyJobs_idempotent (snapshot : StorageSnapshot) (t₁ t₂ : Nat) :
    (migrateLegacyJobs snapshot t₁).2 = snapshot.jobs.length
    ∧ (migrateLegacyJobs snapshot t₁).1.comparisonJobs
        = snapshot.comparisonJobs ++ snapshot.jobs.map (migrateLegacyJob t₁)
    ∧ (migrateLegacyJobs snapshot t₁).1.jobs = []
    ∧ migrateLegacyJobs (migrateLegacyJobs snapshot t₁).1 t₂
        = ((migrateLegacyJobs snapshot t₁).1, 0) := by
  by_cases h : snapshot.jobs.isEmpty
  · have hnil : snapshot.jobs = [] := by simpa using h
    simp [migrateLegacyJobs, h, hnil]
  · have hfst : (migrateLegacyJobs snapshot t₁).1.jobs = [] := by
      simp [migrateLegacyJobs, h]
    refine ⟨?_, ?_, hfst, ?_⟩
    · simp [migrateLegacyJobs, h]
    · simp [migrateLegacyJobs, h]
    · exact migrateLegacyJobs_of_no_legacy t₂ (by simp [hfst])

/-- Reading back the path just written yields the written contents. -/
theorem Disk.read_write_self (d : Disk) (p c : String) :
    Disk.read (Disk.write d p c) p = some c := by
  simp [Disk.read, Disk.write, List.find?]

/-- **C2** is false on the code: `FileStorage.save` performs no rename (and
writes no temp file); it writes the serialized snapshot directly to the
target, and a crash one character into that write leaves on disk a file that
is neither the complete pre-save snapshot nor the complete post-save
snapshot. -/
theorem fileStorage_save_not_atomic :
    (fileStorageSaveTrace exSnapNew).all (fun op => !op.isRename) = true
    ∧ exDiskCrashed ∈ crashStates exDiskPre (fileStorageSaveTrace exSnapNew)
    ∧ Disk.read exDiskCrashed SNAPSHOT_FILE ≠ some (serializeSnapshot exSnapOld)
    ∧ Disk.read exDiskCrashed SNAPSHOT_FILE ≠ some (serializeSnapshot exSnapNew) := by
  refine ⟨rfl, ?_, by decide, by decide⟩
  have h1 : exDiskCrashed = Disk.write exDiskPre SNAPSHOT_FILE
      (String.mk ((serializeSnapshot exSnapNew).data.take 1)) := by decide
  rw [h1]
  simp only [fileStorageSaveTrace, crashStates, FsOp.crashMidStates, FsOp.apply,
    List.nil_append, List.cons_append, List.mem_cons, List.mem_append, List.mem_map,
    List.mem_range]
  right
  right
  left
  exact ⟨1, by decide, rfl⟩

/-- **C2 (amended)**: `FileStorage.save` is not atomic.  Its trace ensures the
data directory and then writes the serialized snapshot directly to the target
file in a single `writeFile`, with no temp file and no rename; a completed
save leaves exactly the serialized snapshot on disk, and a crash at an
arbitrary instant leaves either the pre-save file contents or some prefix
(possibly proper) of the new serialized snapshot. -/
theorem fileStorage_save_direct_write (snapshot : StorageSnapshot) (d : Disk) :
    fileStorageSaveTrace snapshot
        = [FsOp.mkdirRec DATA_DIR, FsOp.writeFile SNAPSHOT_FILE (serializeSnapshot snapshot)]
    ∧ Disk.read (runTrace d (fileStorageSaveTrace snapshot)) SNAPSHOT_FILE
        = some (serializeSnapshot snapshot)
    ∧ ∀ d' ∈ crashStates d (fileStorageSaveTrace snapshot),
        Disk.read d' SNAPSHOT_FILE = Disk.read d SNAPSHOT_FILE
        ∨ ∃ k ≤ (serializeSnapshot snapshot).length,
            Disk.read d' SNAPSHOT_FILE
              = some (String.mk ((serializeSnapshot snapshot).data.take k)) := by
  refine ⟨rfl, ?_, ?_⟩
  · show Disk.read (Disk.write d SNAPSHOT_FILE (serializeSnapshot snapshot)) SNAPSHOT_FILE = _
    exact Disk.read_write_self d SNAPSHOT_FILE (serializeSnapshot snapshot)
  · intro d' hd'
    simp only [fileStorageSaveTrace, crashStates, FsOp.crashMidStates, FsOp.apply,
      List.nil_append, List.cons_append, List.mem_cons, List.mem_append, List.mem_map,
      List.mem_range] at hd'
    rcases hd' with rfl | rfl | ⟨k, hk, rfl⟩ | rfl | hfalse
    · exact Or.inl rfl
    · exact Or.inl rfl
    · exact Or.inr ⟨k, Nat.le_of_lt hk, Disk.read_write_self _ _ _⟩
    · refine Or.inr ⟨(serializeSnapshot snapshot).length, Nat.le_refl _, ?_⟩
      have htake : (serializeSnapshot snapshot).data.take (serializeSnapshot snapshot).length
          = (serializeSnapshot snapshot).data := List.take_length _
      rw [htake]
      exact Disk.read_write_self _ _ _
    · exact absurd hfalse (by simp)

/-- Witness for C2 (amended) at concrete inputs: a completed save over
`exDiskPre` stores the new serialized snapshot, and the pre-save disk itself
is one of the crash outcomes. -/
theorem fileStorage_save_direct_write_witness :
    Disk.read (runTrace exDiskPre (fileStorageSaveTrace exSnapNew)) SNAPSHOT_FILE
      = some (serializeSnapshot exSnapNew)
    ∧ (Disk.read exDiskPre SNAPSHOT_FILE = Disk.read exDiskPre SNAPSHOT_FILE
       ∨ ∃ k ≤ (serializeSnapshot exSnapNew).length,
           Disk.read exDiskPre SNAPSHOT_FILE
             = some (String.mk ((serializeSnapshot exSnapNew).data.take k))) :=
  ⟨(fileStorage_save_direct_write exSnapNew exDiskPre).2.1,
   (fileStorage_save_direct_write exSnapNew exDiskPre).2.2 exDiskPre
     (List.mem_cons_self _ _)⟩

/-- **C8** is false on the code: loading a legacy store returns the migrated
snapshot but does **not** persist it — the store still holds the legacy
snapshot, which differs from the migrated one, and a second load of the same
store migrates again (yielding a different `lastMigration` stamp) instead of
being a no-op. -/
theorem fileStorageLoad_no_persist :
    (fileStorageLoad (some exLegacySnap) 5).1 = migrateSnapshot exLegacySnap 5
    ∧ (fileStorageLoad (some exLegacySnap) 5).2 = some exLegacySnap
    ∧ migrateSnapshot exLegacySnap 5 ≠ exLegacySnap
    ∧ (fileStorageLoad ((fileStorageLoad (some exLegacySnap) 5).2) 7).1
        ≠ (fileStorageLoad (some exLegacySnap) 5).1 := by
  refine ⟨by decide, by decide, by decide, by decide⟩

/-- **C8 (amended)**: on a store whose snapshot version is absent or differs
from the current one, `load` returns an equivalent snapshot at the current
version — converting each legacy job's `sourceUrl`/`targetUrl` to
`baselineUrl`/`candidateUrl` with default crawl config
`{depth 1, maxPages 10, followExternalLinks false}`, an all-true test matrix
and a `migratedFrom` back-pointer, and recording `lastMigration` — but does
**not** persist it: the on-disk store is unchanged when `load` returns, so a
second load re-runs the migration. -/
theorem fileStorageLoad_migrates_without_persisting (old : StorageSnapshot) (now : Nat)
    (h : old.version ≠ some CURRENT_VERSION) :
    fileStorageLoad (some old) now = (migrateSnapshot old now, some old)
    ∧ (migrateSnapshot old now).version = some CURRENT_VERSION
    ∧ (migrateSnapshot old now).comparisonJobs = old.jobs.map migrateSnapshotJob
    ∧ (migrateSnapshot old now).metadata.lastMigration = some now
    ∧ (∀ job ∈ old.jobs,
        (migrateSnapshotJob job).baselineUrl = job.sourceUrl
        ∧ (migrateSnapshotJob job).candidateUrl = job.targetUrl
        ∧ (migrateSnapshotJob job).crawlConfig
            = { depth := 1, maxPages := 10, followExternalLinks := false }
        ∧ (migrateSnapshotJob job).testMatrix
            = { visual := true, functional := true, data := true, seo := true }
        ∧ (migrateSnapshotJob job).migratedFrom = some job.id)
    ∧ (migrateSnapshot old now).runs = old.runs
    ∧ (migrateSnapshot old now).artifacts = old.artifacts := by
  refine ⟨by simp [fileStorageLoad, h], rfl, rfl, rfl, ?_, rfl, rfl⟩
  intro job _
  exact ⟨rfl, rfl, rfl, rfl, rfl⟩

/-- Witness for C8 (amended) at the concrete legacy store. -/
theorem fileStorageLoad_migrates_without_persisting_witness :
    fileStorageLoad (some exLegacySnap) 5 = (migrateSnapshot exLegacySnap 5, some exLegacySnap)
    ∧ (migrateSnapshot exLegacySnap 5).version = some CURRENT_VERSION :=
  ⟨(fileStorageLoad_migrates_without_persisting exLegacySnap 5 (by decide)).1,
   (fileStorageLoad_migrates_without_persisting exLegacySnap 5 (by decide)).2.1⟩

/-- A string passing the absolute-URL check is non-empty. -/
theorem isAbsoluteHttpUrl_not_empty {u : String} (h : isAbsoluteHttpUrl u = true) :
    u.isEmpty = false := by
  cases hb : u.isEmpty
  · rfl
  · have hu : u = "" := (String.isEmpty_iff u).mp hb
    rw [hu] at h
    exact absurd h (by decide)

/-- A body passing the `createJobSchema` validation has both URLs present and
syntactically valid. -/
theorem createJobSchemaOk_urls {body : CreateJobBody}
    (hs : createJobSchemaOk body = true) :
    (∃ u, body.baselineUrl = some u ∧ isAbsoluteHttpUrl u = true)
    ∧ (∃ u, body.candidateUrl = some u ∧ isAbsoluteHttpUrl u = true) := by
  obtain ⟨nameOpt, descOpt, baseOpt, candOpt, ccOpt, pmOpt, tmOpt⟩ := body
  unfold createJobSchemaOk at hs
  rcases baseOpt with _ | u₁
  · simp at hs
  · rcases candOpt with _ | u₂
    · simp at hs
    · simp only [Bool.and_eq_true] at hs
      exact ⟨⟨u₁, rfl, hs.1.2⟩, ⟨u₂, rfl, hs.2⟩⟩

/-- `createJob` rejects equal non-empty URLs with the
`'must be different'` error (and saves nothing). -/
theorem createJob_equal_urls (snapshot : StorageSnapshot) (input : CreateJobInput)
    (freshId : String) (now : Nat)
    (heq : input.baselineUrl = input.candidateUrl)
    (hne : input.baselineUrl.isEmpty = false) :
    createJob snapshot input freshId now
      = Except.error "baselineUrl and candidateUrl must be different" := by
  have hor : ¬ ((input.baselineUrl.isEmpty || input.candidateUrl.isEmpty) = true) := by
    rw [← heq, hne]
    simp
  simp only [createJob]
  rw [if_neg hor, if_pos heq]

/-- **C7**: for every create-job request in which `baselineUrl` or
`candidateUrl` is missing, not a syntactically valid absolute URL, or in
which the two URLs are equal, job creation fails with an `InvalidInput`-kind
error surfaced as HTTP 400 and no job is appended to the stored snapshot (the
snapshot is unchanged on failure): the registered `createJobSchema` rejects
an absent or non-URI field before the handler runs, and the service rejects
equal URLs. -/
theorem createJob_validation (snapshot : StorageSnapshot) (body : CreateJobBody)
    (freshId : String) (now : Nat)
    (h : body.baselineUrl = none ∨ body.candidateUrl = none
         ∨ (∃ u, body.baselineUrl = some u ∧ isAbsoluteHttpUrl u = false)
         ∨ (∃ u, body.candidateUrl = some u ∧ isAbsoluteHttpUrl u = false)
         ∨ body.baselineUrl = body.candidateUrl) :
    (postJobs snapshot body freshId now).1 = 400
    ∧ (postJobs snapshot body freshId now).2 = snapshot := by
  by_cases hs : createJobSchemaOk body = true
  · obtain ⟨⟨u₁, hbu, hbv⟩, u₂, hcu, hcv⟩ := createJobSchemaOk_urls hs
    have hequ : u₁ = u₂ := by
      rcases h with h1 | h2 | ⟨u, hu, hf⟩ | ⟨u, hu, hf⟩ | h5
      · rw [h1] at hbu
        exact absurd hbu (by simp)
      · rw [h2] at hcu
        exact absurd hcu (by simp)
      · rw [hu] at hbu
        cases Option.some.inj hbu
        rw [hf] at hbv
        exact Bool.noConfusion hbv
      · rw [hu] at hcu
        cases Option.some.inj hcu
        rw [hf] at hcv
        exact Bool.noConfusion hcv
      · rw [hbu, hcu] at h5
        exact Option.some.inj h5
    subst hequ
    have e1 : (bodyToInput body).baselineUrl = u₁ := by simp [bodyToInput, hbu]
    have e2 : (bodyToInput body).candidateUrl = u₁ := by simp [bodyToInput, hcu]
    have hcj := createJob_equal_urls snapshot (bodyToInput body)
      freshId now (by rw [e1, e2]) (by rw [e1]; exact isAbsoluteHttpUrl_not_empty hbv)
    have hst : postJobsErrorStatus "baselineUrl and candidateUrl must be different" = 400 := by
      decide
    constructor <;> simp [postJobs, hs, hcj, hst]
  · constructor <;> simp [postJobs, hs]

/-- Witness for C7: a body with an invalid baseline URL and the duplicate-URL
body of scenario S2 are both rejected with 400, leaving the snapshot
unchanged. -/
theorem createJob_validation_witness :
    (postJobs {} exBadUrlBody "id1" 0).1 = 400
    ∧ (postJobs {} exDupUrlBody "id1" 0).1 = 400
    ∧ (postJobs {} exDupUrlBody "id1" 0).2 = ({} : StorageSnapshot) :=
  ⟨(createJob_validation {} exBadUrlBody "id1" 0
      (Or.inr (Or.inr (Or.inl ⟨"not-a-url", rfl, by decide⟩)))).1,
   (createJob_validation {} exDupUrlBody "id1" 0
      (Or.inr (Or.inr (Or.inr (Or.inr rfl))))).1,
   (createJob_validation {} exDupUrlBody "id1" 0
      (Or.inr (Or.inr (Or.inr (Or.inr rfl))))).2⟩

/-- **C6**: for every run produced or updated by the services, `completedAt`
is set iff the run's status is `completed` or `failed`: a run created by
`triggerComparisonRun` is `queued` with no `completedAt`; in every snapshot
saved by `executePlaywrightRun` the run is either `running` with no
`completedAt` or terminal with `completedAt = t₂ ≥ triggeredAt`; and the last
saved snapshot holds the run in a terminal status with
`completedAt = t₂ ≥ triggeredAt = t₁`. -/
theorem run_lifecycle (snapshot : StorageSnapshot) (jobId triggeredBy freshRunId : String)
    (t₁ t₂ : Nat) (captureOk : Bool) (newArtifacts : List RunArtifact)
    (s' : StorageSnapshot) (run : Run)
    (htrig : triggerComparisonRun snapshot jobId triggeredBy freshRunId t₁
      = Except.ok (s', run))
    (hclock : t₁ ≤ t₂) :
    run.status = RunStatus.queued ∧ run.completedAt = none ∧ run.triggeredAt = t₁
    ∧ run ∈ s'.runs
    ∧ (∀ snap ∈ executePlaywrightRun s' freshRunId captureOk newArtifacts t₂,
        ∀ r ∈ snap.runs, r.id = freshRunId →
          ((r.status = RunStatus.running ∧ r.completedAt = none)
           ∨ ((r.status = RunStatus.completed ∨ r.status = RunStatus.failed)
              ∧ r.completedAt = some t₂ ∧ r.triggeredAt ≤ t₂)))
    ∧ (∀ r ∈ ((executePlaywrightRun s' freshRunId captureOk newArtifacts t₂).getLastD s').runs,
        r.id = freshRunId →
          (r.status = RunStatus.completed ∨ r.status = RunStatus.failed)
          ∧ r.completedAt = some t₂ ∧ r.triggeredAt = t₁) := by
  simp only [triggerComparisonRun] at htrig
  split at htrig
  · exact Except.noConfusion htrig
  · split_ifs at htrig with hu1 hu2
    · simp only [Except.ok.injEq, Prod.mk.injEq] at htrig
      obtain ⟨hs', hrun⟩ := htrig
      subst hs'
      subst hrun
      have hfind : List.find? (fun r => r.id == freshRunId)
          ({ id := freshRunId, jobId := jobId, status := RunStatus.queued,
             triggeredBy := triggeredBy, triggeredAt := t₁, completedAt := none } ::
            snapshot.runs)
          = some { id := freshRunId, jobId := jobId, status := RunStatus.queued,
                   triggeredBy := triggeredBy, triggeredAt := t₁, completedAt := none } := by
        simp [List.find?]
      refine ⟨rfl, rfl, rfl, List.mem_cons_self _ _, ?_, ?_⟩
      · intro snap hsnap r hr hid
        simp only [executePlaywrightRun, hfind, List.mem_cons, List.not_mem_nil,
          or_false] at hsnap
        rcases hsnap with rfl | rfl
        · rcases List.mem_map.mp hr with ⟨r₀, hr₀, rfl⟩
          by_cases h₀ : (r₀.id == freshRunId) = true
          · rw [if_pos h₀]
            exact Or.inl ⟨rfl, rfl⟩
          · rw [if_neg h₀] at hid
            exact absurd (beq_iff_eq.mpr hid) h₀
        · rcases List.mem_map.mp hr with ⟨r₁, hr₁, rfl⟩
          by_cases h₁ : (r₁.id == freshRunId) = true
          · rw [if_pos h₁]
            cases captureOk
            · exact Or.inr ⟨Or.inr rfl, rfl, hclock⟩
            · exact Or.inr ⟨Or.inl rfl, rfl, hclock⟩
          · rw [if_neg h₁] at hid
            exact absurd (beq_iff_eq.mpr hid) h₁
      · intro r hr hid
        simp only [executePlaywrightRun, hfind, List.getLastD_cons, List.getLastD_nil]
          at hr
        rcases List.mem_map.mp hr with ⟨r₁, hr₁, rfl⟩
        by_cases h₁ : (r₁.id == freshRunId) = true
        · rw [if_pos h₁]
          cases captureOk
          · exact ⟨Or.inr rfl, rfl, rfl⟩
          · exact ⟨Or.inl rfl, rfl, rfl⟩
        · rw [if_neg h₁] at hid
          exact absurd (beq_iff_eq.mpr hid) h₁

/-- Witness for C6 at a concrete job and run. -/
theorem run_lifecycle_witness :
    exRun.status = RunStatus.queued ∧ exRun.completedAt = none :=
  ⟨(run_lifecycle exSnapWithJob "job1" "tester" "run1" 3 7 true [] exSnapWithRun exRun
      rfl (by decide)).1,
   (run_lifecycle exSnapWithJob "job1" "tester" "run1" 3 7 true [] exSnapWithRun exRun
      rfl (by decide)).2.1⟩

/-- **C3** is false on the capture path that handles matched pages:
`executeComparison` launches the two per-site `executeSite` loops with
`Promise.all`, so the schedule in which the candidate capture of matched page
0 completes before the baseline capture of the same page is admissible, and
it violates per-page baseline-before-candidate ordering. -/
theorem executeComparison_not_baseline_first :
    [(Site.candidate, 0), (Site.baseline, 0)] ∈ executeComparisonTraces 1
    ∧ baselineFirstPerPage 1 [(Site.candidate, 0), (Site.baseline, 0)] = false := by
  decide

/-- **C3 (amended)**: the lightweight runner `runTwoSiteCapture` captures all
baseline evidence strictly before any candidate evidence (it awaits the
baseline capture to completion before starting the candidate capture); the
matched-page capture of `executeComparison`, however, runs the two sites
concurrently via `Promise.all` and does not guarantee per-page
baseline-before-candidate ordering. -/
theorem runTwoSiteCapture_baseline_first :
    noBaselineAfterCandidate runTwoSiteCaptureTrace = true := by
  decide

/-- Every pair produced by the explicit pass has confidence 1.0, reason
`"Explicit pageMap mapping"`, and pages drawn from the two crawl results. -/
theorem matchExplicit_mem (bs cs : List CrawledPage) :
    ∀ (pm : List PageMapEntry), ∀ m ∈ matchExplicit bs cs pm,
      m.confidence = 1 ∧ m.matchReason = "Explicit pageMap mapping"
      ∧ m.baseline ∈ bs ∧ m.candidate ∈ cs := by
  intro pm
  induction pm with
  | nil => simp [matchExplicit]
  | cons e rest ih =>
    intro m hm
    simp only [matchExplicit] at hm
    rcases hfb : List.find?
        (fun p => p.normalizedPath == e.baselinePath || strEndsWith p.url e.baselinePath) bs
      with _ | bp
    · rw [hfb] at hm
      exact ih m hm
    · rcases hfc : List.find?
          (fun p => p.normalizedPath == e.candidatePath || strEndsWith p.url e.candidatePath) cs
        with _ | cp
      · rw [hfb, hfc] at hm
        exact ih m hm
      · rw [hfb, hfc] at hm
        rcases List.mem_cons.mp hm with rfl | hm'
        · exact ⟨rfl, rfl, List.mem_of_find?_eq_some hfb, List.mem_of_find?_eq_some hfc⟩
        · exact ih m hm'

/-- Every pair in the state after pass 1 of `matchPages` has confidence 1.0,
reason `"Explicit pageMap mapping"`, and pages drawn from the two crawl
results. -/
theorem matchPagesExplicitStep_mem (baselineResult candidateResult : CrawlResult)
    (existingPageMap : Option (List PageMapEntry)) :
    ∀ m ∈ matchPagesExplicitStep baselineResult candidateResult existingPageMap,
      m.confidence = 1 ∧ m.matchReason = "Explicit pageMap mapping"
      ∧ m.baseline ∈ baselineResult.pages ∧ m.candidate ∈ candidateResult.pages := by
  intro m hm
  unfold matchPagesExplicitStep at hm
  split at hm
  · split_ifs at hm with hlen
    · exact matchExplicit_mem _ _ _ m hm
    · exact absurd hm (List.not_mem_nil m)
  · exact absurd hm (List.not_mem_nil m)

/-- Pass 2 (path rule) appends, after the accumulator, pairs with confidence
0.9 and reason `"Exact path match"` whose baseline URLs are pairwise distinct
and distinct from every baseline URL already in the accumulator. -/
theorem matchByPath_spec (cs : List CrawledPage) :
    ∀ (bs : List CrawledPage) (acc : List MatchedPage),
      ∃ rest, matchByPath cs acc bs = acc ++ rest
        ∧ (∀ m ∈ rest, m.confidence = 9/10 ∧ m.matchReason = "Exact path match"
            ∧ m.baseline ∈ bs ∧ m.candidate ∈ cs)
        ∧ (∀ m ∈ rest, ∀ m' ∈ acc, m.baseline.url ≠ m'.baseline.url)
        ∧ rest.Pairwise (fun a b => a.baseline.url ≠ b.baseline.url) := by
  intro bs
  induction bs with
  | nil =>
    intro acc
    exact ⟨[], by simp [matchByPath], by simp, by simp, List.Pairwise.nil⟩
  | cons bp tail ih =>
    intro acc
    by_cases hmatched : (acc.any (fun m => m.baseline.url == bp.url)) = true
    · obtain ⟨r, hr, hprops, hdisj, hpw⟩ := ih acc
      refine ⟨r, ?_, ?_, hdisj, hpw⟩
      · simp only [matchByPath, hmatched, if_true]
        exact hr
      · intro m hm
        obtain ⟨h1, h2, h3, h4⟩ := hprops m hm
        exact ⟨h1, h2, List.mem_cons_of_mem _ h3, h4⟩
    · rcases hfind : List.find? (fun p => p.normalizedPath == bp.normalizedPath) cs
        with _ | cp
      · obtain ⟨r, hr, hprops, hdisj, hpw⟩ := ih acc
        refine ⟨r, ?_, ?_, hdisj, hpw⟩
        · simp only [matchByPath, hmatched, if_false, Bool.false_eq_true, hfind]
          exact hr
        · intro m hm
          obtain ⟨h1, h2, h3, h4⟩ := hprops m hm
          exact ⟨h1, h2, List.mem_cons_of_mem _ h3, h4⟩
      · obtain ⟨r, hr, hprops, hdisj, hpw⟩ :=
          ih (acc ++ [{ baseline := bp, candidate := cp, confidence := 9/10,
                        matchReason := "Exact path match" }])
        have hnotacc : ∀ m' ∈ acc, ¬ m'.baseline.url = bp.url := by
          intro m' hm' heq
          exact hmatched (List.any_eq_true.mpr ⟨m', hm', beq_iff_eq.mpr heq⟩)
        refine ⟨{ baseline := bp, candidate := cp, confidence := 9/10,
                  matchReason := "Exact path match" } :: r, ?_, ?_, ?_, ?_⟩
        · simp only [matchByPath, hmatched, if_false, Bool.false_eq_true, hfind]
          rw [hr, List.append_assoc, List.singleton_append]
        · intro m hm
          rcases List.mem_cons.mp hm with rfl | hm'
          · exact ⟨rfl, rfl, List.mem_cons_self _ _, List.mem_of_find?_eq_some hfind⟩
          · obtain ⟨h1, h2, h3, h4⟩ := hprops m hm'
            exact ⟨h1, h2, List.mem_cons_of_mem _ h3, h4⟩
        · intro m hm m' hm'
          rcases List.mem_cons.mp hm with rfl | hm2
          · exact fun heq => hnotacc m' hm' heq.symm
          · exact hdisj m hm2 m' (List.mem_append_left _ hm')
        · refine List.Pairwise.cons ?_ hpw
          intro b hb
          have hb' := hdisj b hb _ (List.mem_append_right _ (List.mem_cons_self _ _))
          exact fun heq => hb' heq.symm

/-- Pass 3 (title rule) appends, after the accumulator, pairs with confidence
0.7 and reason `"Title match"` whose baseline URLs are pairwise distinct and
distinct from every baseline URL already in the accumulator. -/
theorem matchByTitle_spec (cs : List CrawledPage) :
    ∀ (bs : List CrawledPage) (acc : List MatchedPage),
      ∃ rest, matchByTitle cs acc bs = acc ++ rest
        ∧ (∀ m ∈ rest, m.confidence = 7/10 ∧ m.matchReason = "Title match"
            ∧ m.baseline ∈ bs ∧ m.candidate ∈ cs)
        ∧ (∀ m ∈ rest, ∀ m' ∈ acc, m.baseline.url ≠ m'.baseline.url)
        ∧ rest.Pairwise (fun a b => a.baseline.url ≠ b.baseline.url) := by
  intro bs
  induction bs with
  | nil =>
    intro acc
    exact ⟨[], by simp [matchByTitle], by simp, by simp, List.Pairwise.nil⟩
  | cons bp tail ih =>
    intro acc
    by_cases hmatched : (acc.any (fun m => m.baseline.url == bp.url)) = true
    · obtain ⟨r, hr, hprops, hdisj, hpw⟩ := ih acc
      refine ⟨r, ?_, ?_, hdisj, hpw⟩
      · simp only [matchByTitle, hmatched, if_true]
        exact hr
      · intro m hm
        obtain ⟨h1, h2, h3, h4⟩ := hprops m hm
        exact ⟨h1, h2, List.mem_cons_of_mem _ h3, h4⟩
    · by_cases htitle : titleFalsy bp.title = true
      · obtain ⟨r, hr, hprops, hdisj, hpw⟩ := ih acc
        refine ⟨r, ?_, ?_, hdisj, hpw⟩
        · simp only [matchByTitle, hmatched, if_false, Bool.false_eq_true, htitle, if_true]
          exact hr
        · intro m hm
          obtain ⟨h1, h2, h3, h4⟩ := hprops m hm
          exact ⟨h1, h2, List.mem_cons_of_mem _ h3, h4⟩
      · rcases hfind : List.find? (fun p =>
            !(acc.any (fun m => m.candidate.url == p.url)) &&
            !(titleFalsy p.title) &&
            (normalizeTitle (p.title.getD "") == normalizeTitle (bp.title.getD ""))) cs
          with _ | cp
        · obtain ⟨r, hr, hprops, hdisj, hpw⟩ := ih acc
          refine ⟨r, ?_, ?_, hdisj, hpw⟩
          · simp only [matchByTitle, hmatched, htitle, if_false, Bool.false_eq_true, hfind]
            exact hr
          · intro m hm
            obtain ⟨h1, h2, h3, h4⟩ := hprops m hm
            exact ⟨h1, h2, List.mem_cons_of_mem _ h3, h4⟩
        · obtain ⟨r, hr, hprops, hdisj, hpw⟩ :=
            ih (acc ++ [{ baseline := bp, candidate := cp, confidence := 7/10,
                          matchReason := "Title match" }])
          have hnotacc : ∀ m' ∈ acc, ¬ m'.baseline.url = bp.url := by
            intro m' hm' heq
            exact hmatched (List.any_eq_true.mpr ⟨m', hm', beq_iff_eq.mpr heq⟩)
          refine ⟨{ baseline := bp, candidate := cp, confidence := 7/10,
                    matchReason := "Title match" } :: r, ?_, ?_, ?_, ?_⟩
          · simp only [matchByTitle, hmatched, htitle, if_false, Bool.false_eq_true, hfind]
            rw [hr, List.append_assoc, List.singleton_append]
          · intro m hm
            rcases List.mem_cons.mp hm with rfl | hm'
            · exact ⟨rfl, rfl, List.mem_cons_self _ _, List.mem_of_find?_eq_some hfind⟩
            · obtain ⟨h1, h2, h3, h4⟩ := hprops m hm'
              exact ⟨h1, h2, List.mem_cons_of_mem _ h3, h4⟩
          · intro m hm m' hm'
            rcases List.mem_cons.mp hm with rfl | hm2
            · exact fun heq => hnotacc m' hm' heq.symm
            · exact hdisj m hm2 m' (List.mem_append_left _ hm')
          · refine List.Pairwise.cons ?_ hpw
            intro b hb
            have hb' := hdisj b hb _ (List.mem_append_right _ (List.mem_cons_self _ _))
            exact fun heq => hb' heq.symm

/-- **C4** is false on the code: with an explicit PageMap pairing `/p1` with
`/q1`, baseline pages `/p1` and `/q1` and the single candidate page `/q1`,
`matchPages` produces two pairs that both use the candidate page `/q1` — the
explicit pair and a path-rule pair — because the path rule does not remove
matched candidate pages from further consideration. -/
theorem matchPages_duplicates_candidate :
    matchPages exBaseCrawl exCandCrawl (some [exMapEntry]) = [exExplicitPair, exPathPair]
    ∧ exExplicitPair.candidate = exCand1
    ∧ exPathPair.candidate = exCand1
    ∧ (matchPages exBaseCrawl exCandCrawl (some [exMapEntry])).countP
        (fun m => m.candidate.url == exCand1.url) = 2 :=
  ⟨rfl, rfl, rfl, rfl⟩

/-- **C4 (amended)**: `matchPages` applies its three rules in order — explicit
PageMap pairs at confidence 1.0, exact normalized-path equality at 0.9, exact
case-insensitive trimmed title equality at 0.7.  A baseline page matched by
the path or title rule is removed from further consideration, so beyond the
explicit-rule pairs no baseline page appears in more than one pair and none
reuses a baseline page of an explicit pair.  The explicit rule performs no
deduplication, and the path rule does not exclude already-matched candidate
pages, so a candidate page can appear in more than one matched pair. -/
theorem matchPages_structure (baselineResult candidateResult : CrawlResult)
    (existingPageMap : Option (List PageMapEntry)) :
    (∀ m ∈ matchPagesExplicitStep baselineResult candidateResult existingPageMap,
      m.confidence = 1 ∧ m.matchReason = "Explicit pageMap mapping"
      ∧ m.baseline ∈ baselineResult.pages ∧ m.candidate ∈ candidateResult.pages)
    ∧ ∃ auto,
        matchPages baselineResult candidateResult existingPageMap
          = matchPagesExplicitStep baselineResult candidateResult existingPageMap ++ auto
        ∧ (∀ m ∈ auto,
            ((m.confidence = 9/10 ∧ m.matchReason = "Exact path match")
             ∨ (m.confidence = 7/10 ∧ m.matchReason = "Title match"))
            ∧ m.baseline ∈ baselineResult.pages ∧ m.candidate ∈ candidateResult.pages)
        ∧ auto.Pairwise (fun a b => a.baseline.url ≠ b.baseline.url)
        ∧ (∀ m ∈ auto,
            ∀ m' ∈ matchPagesExplicitStep baselineResult candidateResult existingPageMap,
              m.baseline.url ≠ m'.baseline.url) := by
  refine ⟨matchPagesExplicitStep_mem baselineResult candidateResult existingPageMap, ?_⟩
  obtain ⟨r2, h2eq, h2props, h2disj, h2pw⟩ :=
    matchByPath_spec candidateResult.pages baselineResult.pages
      (matchPagesExplicitStep baselineResult candidateResult existingPageMap)
  obtain ⟨r3, h3eq, h3props, h3disj, h3pw⟩ :=
    matchByTitle_spec candidateResult.pages baselineResult.pages
      (matchPagesExplicitStep baselineResult candidateResult existingPageMap ++ r2)
  refine ⟨r2 ++ r3, ?_, ?_, ?_, ?_⟩
  · show matchByTitle candidateResult.pages
        (matchByPath candidateResult.pages
          (matchPagesExplicitStep baselineResult candidateResult existingPageMap)
          baselineResult.pages)
        baselineResult.pages = _
    rw [h2eq, h3eq, List.append_assoc]
  · intro m hm
    rcases List.mem_append.mp hm with h2m | h3m
    · obtain ⟨h1, h2, h3, h4⟩ := h2props m h2m
      exact ⟨Or.inl ⟨h1, h2⟩, h3, h4⟩
    · obtain ⟨h1, h2, h3, h4⟩ := h3props m h3m
      exact ⟨Or.inr ⟨h1, h2⟩, h3, h4⟩
  · rw [List.pairwise_append]
    refine ⟨h2pw, h3pw, ?_⟩
    intro a ha b hb
    exact fun heq => (h3disj b hb a (List.mem_append_right _ ha)) heq.symm
  · intro m hm m' hm'
    rcases List.mem_append.mp hm with h2m | h3m
    · exact h2disj m h2m m' hm'
    · exact h3disj m h3m m' (List.mem_append_left _ hm')

/-- Witness for C4 (amended): the explicit-phase pair of the concrete inputs
has confidence 1.0, the explicit reason, and pages from the two crawls. -/
theorem matchPages_structure_witness :
    exExplicitPair.confidence = 1
    ∧ exExplicitPair.matchReason = "Explicit pageMap mapping"
    ∧ exExplicitPair.baseline ∈ exBaseCrawl.pages
    ∧ exExplicitPair.candidate ∈ exCandCrawl.pages :=
  (matchPages_structure exBaseCrawl exCandCrawl (some [exMapEntry])).1
    exExplicitPair (List.mem_singleton_self _)

end MigrateGuard
